import Mathlib

/-!
Verification of the bar-chart presentation pipeline in
`src/renderer/components/chart/bar-chart.tsx`.

The file shallowly embeds the pure logic of that component:

* the dataset normalizer (the `chartData` value built inside `BarChart`),
* the no-data branch of `BarChart` (`if (!chartData.datasets.length) return <NoMetrics/>`),
* `formatTimeLabels`,
* the tooltip title callback and the two tooltip label callbacks
  (`memoryOptions` / `cpuOptions`),
* the two y-axis tick callbacks (`memoryOptions` / `cpuOptions`),
* the lodash `merge` used on line 141, modelled over a JSON-like tree,
* the `color` library transformation used by `getBarColor`
  (`Color(c).alpha(0.2).string()`), modelled as parse / set-alpha /
  serialize over `rgb(...)` / `rgba(...)` strings.

JavaScript numbers are modelled as rationals (`ℚ`); the numeric-string
conversions used by the component (`toFixed`, `parseFloat`,
`parseInt(x.toString())`) are given executable models.  External
functions whose output string is irrelevant to a property (the `HH:mm`
moment formatter, `Date` parsing, `toPrecision`, and in most statements
the byte-unit scaler) are passed as explicit function parameters, so the
theorems hold for every behaviour of those externals.

All definitions come first, then the supporting lemmas, then one theorem
per specification claim together with its witness or counterexample.
-/

/-! ## Decimal digits: printing and parsing -/

/-- The character for a single decimal digit `d < 10`. -/
def digitChar (d : Nat) : Char := Char.ofNat (48 + d)

/-- Fuel-driven decimal printer for naturals (most significant digit first).
The fuel only bounds the recursion depth; `natDigits` supplies enough. -/
def natDigitsF : Nat → Nat → List Char
  | 0, _ => []
  | f + 1, n =>
    if n < 10 then [digitChar n]
    else natDigitsF f (n / 10) ++ [digitChar (n % 10)]

/-- Decimal digits of a natural number, e.g. `natDigits 255 = ['2','5','5']`. -/
def natDigits (n : Nat) : List Char := natDigitsF (n + 1) n

/-- Accumulator-style digit folding: the numeric value of `acc` followed by
the digits `cs` (each char taken as `toNat - 48`). -/
def parseNatFrom (acc : Nat) : List Char → Nat
  | [] => acc
  | c :: cs => parseNatFrom (acc * 10 + (c.toNat - 48)) cs

/-- Parse a non-empty all-digit character list as a natural number. -/
def parseNatL (cs : List Char) : Option Nat :=
  if cs ≠ [] ∧ cs.all Char.isDigit then some (parseNatFrom 0 cs) else none

/-! ## JavaScript numeric-string conversions -/

/-- Character test used by the parsers below (ASCII decimal digit). -/
def isDigitChar (c : Char) : Bool := c.isDigit

/-- Model of JavaScript `parseFloat(s)`: skip leading blanks, optional sign,
then the longest `digits[.digits]` prefix; `none` models `NaN` (no digits at
all).  Exponent suffixes are not modelled — the chart feeds this function
axis values whose string forms are plain decimals. -/
def parseFloat (s : String) : Option ℚ :=
  let cs := s.data.dropWhile (fun c => c = ' ')
  let signed : Bool × List Char :=
    match cs with
    | '-' :: rest => (true, rest)
    | '+' :: rest => (false, rest)
    | _ => (false, cs)
  let ip := signed.2.takeWhile isDigitChar
  let afterIp := signed.2.dropWhile isDigitChar
  let fp : List Char :=
    match afterIp with
    | '.' :: rest => rest.takeWhile isDigitChar
    | _ => []
  if ip = [] ∧ fp = [] then none
  else
    let mag : ℚ := mkRat (parseNatFrom 0 ip * 10 ^ fp.length + parseNatFrom 0 fp) (10 ^ fp.length)
    some (if signed.1 then Rat.neg mag else mag)

/-- Left-pad a digit list with `'0'` up to length `k`. -/
def padLeftZeros (l : List Char) (k : Nat) : List Char :=
  List.replicate (k - l.length) '0' ++ l

/-- Model of JavaScript `Number.prototype.toFixed(d)` on exact rationals:
print the sign, then round `|q| * 10^d` to the nearest integer (ties away
from zero, as ECMA-262 specifies for the non-negative operand) and place a
decimal point `d` digits from the right.  With `x = |q| = x.num / x.den`,
that nearest integer `⌊x * 10^d + 1/2⌋` is computed in `Nat` arithmetic as
`(2 * x.num * 10^d + x.den) / (2 * x.den)`. -/
def toFixed (q : ℚ) (d : Nat) : String :=
  let sign := if q < 0 then "-" else ""
  let x := if q < 0 then Rat.neg q else q
  let n : Nat := (2 * x.num.toNat * 10 ^ d + x.den) / (2 * x.den)
  if d = 0 then sign ++ String.mk (natDigits n)
  else
    let ds := padLeftZeros (natDigits n) (d + 1)
    sign ++ String.mk (ds.take (ds.length - d)) ++ "." ++ String.mk (ds.drop (ds.length - d))

/-- Model of JavaScript `parseInt(x.toString())` for a finite number `x`:
truncation toward zero. -/
def jsTrunc (q : ℚ) : Int := q.num.tdiv (q.den : Int)

/-- Digits of the fractional expansion of `n / d` (with `n < d`), stopping
at the first exact remainder or after `fuel` digits. -/
def fracDigits : Nat → Nat → Nat → List Char
  | 0, _, _ => []
  | _, 0, _ => []
  | fuel + 1, n, d => digitChar (n * 10 / d) :: fracDigits fuel (n * 10 % d) d

/-- Shortest-form decimal rendering of a non-negative rational, in the style
of JavaScript number printing: integer part `q.num / q.den` (floor), then
the fractional expansion of the remainder with no trailing zeros (cut off
after 20 digits for non-terminating expansions). -/
def decimalString (q : ℚ) : String :=
  let ip := q.num.toNat / q.den
  let rem := q.num.toNat % q.den
  if rem = 0 then String.mk (natDigits ip)
  else String.mk (natDigits ip) ++ "." ++ String.mk (fracDigits 20 rem q.den)

/-- Drop trailing zeros (and then a trailing dot) from a fixed-point digit
string, so that `"2.00"` becomes `"2"` and `"1.50"` becomes `"1.5"`. -/
def trimFixed (s : String) : String :=
  let cs := (s.data.reverse.dropWhile (fun c => c = '0')).reverse
  match cs.getLast? with
  | some '.' => String.mk (cs.dropLast)
  | _ => String.mk cs

/-- Modelled from the spec: the byte-unit scaling function `bytesToUnits`
from `../../utils`, whose source is not part of this snapshot.  Per §6 it is
a deterministic `(numericValue, precision?) → displayString` utility that
scales a byte count to an appropriate unit suffix, per §4.3 with the
example convention `2048 → "2 KB"`; `precision` bounds the digits shown
after the decimal point and trailing zeros are trimmed to match that
example. -/
def bytesToUnits (value : ℚ) (precision : Nat) : String :=
  if value < 1024 then decimalString value ++ " B"
  else if value < 1048576 then
    trimFixed (toFixed (mkRat value.num (value.den * 1024)) precision) ++ " KB"
  else if value < 1073741824 then
    trimFixed (toFixed (mkRat value.num (value.den * 1048576)) precision) ++ " MB"
  else trimFixed (toFixed (mkRat value.num (value.den * 1073741824)) precision) ++ " GB"

/-! ## JSON-like option trees and the lodash merge -/

/-- A JSON-like tree of configuration values, the shape over which the
caller's `options` object and the computed `barOptions` are merged.
Function-valued options (the various callbacks) are modelled separately as
the explicit Lean functions below, not as tree leaves. -/
inductive JValue where
  | null : JValue
  | bool : Bool → JValue
  | num : ℚ → JValue
  | str : String → JValue
  | arr : List JValue → JValue
  | obj : List (String × JValue) → JValue

/-- First-match lookup of a key in an object's field list (JS property
read). -/
def lookupField : List (String × JValue) → String → Option JValue
  | [], _ => none
  | (k', v) :: rest, k => if k' = k then some v else lookupField rest k

/-- Model of JS property assignment `o[k] = v`: overwrite in place if the
key exists, otherwise append the new key at the end. -/
def setField : List (String × JValue) → String → JValue → List (String × JValue)
  | [], k, v => [(k, v)]
  | (k', v') :: rest, k, v =>
    if k' = k then (k, v) :: rest else (k', v') :: setField rest k v

mutual
/-- Model of lodash `merge` as used on line 141
(`const options = merge(barOptions, customOptions)`): plain objects merge
key-by-key recursively; arrays merge index-by-index recursively (lodash
treats an array source like an object with numeric keys, so a shorter
source array only overwrites a prefix of the destination array); any other
source value overwrites the destination value. -/
def lodashMerge : JValue → JValue → JValue
  | JValue.obj d, JValue.obj s => JValue.obj (mergeFields d s)
  | JValue.arr d, JValue.arr s => JValue.arr (mergeArrays d s)
  | _, s => s
termination_by a b => sizeOf b

/-- Left-to-right fold of lodash merge over the source object's fields. -/
def mergeFields : List (String × JValue) → List (String × JValue) → List (String × JValue)
  | d, [] => d
  | d, (k, sv) :: rest =>
    mergeFields
      (setField d k
        (match lookupField d k with
         | some dv => lodashMerge dv sv
         | none => sv))
      rest
termination_by d s => sizeOf s

/-- Index-wise merge of two arrays (see `lodashMerge`). -/
def mergeArrays : List JValue → List JValue → List JValue
  | d, [] => d
  | [], sv :: rest => sv :: mergeArrays [] rest
  | dv :: d, sv :: rest => lodashMerge dv sv :: mergeArrays d rest
termination_by d s => sizeOf s
end

/-- A value the merge never recurses into (neither an object nor an
array). -/
def isMergeable : JValue → Bool
  | JValue.obj _ => true
  | JValue.arr _ => true
  | _ => false

/-! ## Datasets and the normalizer -/

/-- One point of a dataset (`{x: timestamp, y: numeric value}`). -/
structure ChartPoint where
  x : Int
  y : ℚ
deriving DecidableEq

/-- The per-dataset border-width option; the injected default is
`{top: 3}` (top-edge border emphasis). -/
structure BorderWidth where
  top : ℚ
deriving DecidableEq

/-- The chart-kind tag injected into each dataset (`ChartKind.BAR` from the
sibling `chart` module, which identifies the bar renderer). -/
def ChartKind.BAR : String := "bar"

/-- A caller-supplied dataset.  Fields the normalizer may inject defaults
for are optional: `none` models an absent JS property, which the object
spread `{type: ..., borderWidth: ..., barPercentage: 1,
categoryPercentage: 1, ...item}` would fill in. -/
structure ChartDataset where
  label : Option String
  borderColor : Option String
  data : List ChartPoint
  type : Option String
  borderWidth : Option BorderWidth
  barPercentage : Option ℚ
  categoryPercentage : Option ℚ
deriving DecidableEq

/-- A dataset after normalization: the geometry attributes are present. -/
structure NormalizedDataset where
  label : Option String
  borderColor : Option String
  data : List ChartPoint
  type : String
  borderWidth : BorderWidth
  barPercentage : ℚ
  categoryPercentage : ℚ
deriving DecidableEq

/-- The per-dataset step of the `chartData` construction: the object spread
`{type: ChartKind.BAR, borderWidth: {top: 3}, barPercentage: 1,
categoryPercentage: 1, ...item}` — defaults first, the caller's own
properties after, so a property present on `item` wins. -/
def normalizeDataset (d : ChartDataset) : NormalizedDataset :=
  { label := d.label
    borderColor := d.borderColor
    data := d.data
    type := d.type.getD ChartKind.BAR
    borderWidth := d.borderWidth.getD { top := 3 }
    barPercentage := d.barPercentage.getD 1
    categoryPercentage := d.categoryPercentage.getD 1 }

/-- The `chartData.datasets` computation:
`data.datasets.filter(set => set.data.length).map(item => ...)`. -/
def normalizeDatasets (l : List ChartDataset) : List NormalizedDataset :=
  (l.filter (fun d => !d.data.isEmpty)).map normalizeDataset

/-! ## The BarChart pipeline -/

/-- The three theme colors read from `themeStore.activeTheme.colors`. -/
structure ThemeColors where
  textColorPrimary : String
  borderFaintColor : String
  chartStripesColor : String
deriving DecidableEq

/-- The props of `BarChart` that the embedded logic depends on. -/
structure BarChartProps where
  name : Option String
  timeLabelStep : Nat
  datasets : List ChartDataset
  customOptions : List (String × JValue)

/-- The data-valued part of the computed `barOptions` object (every field
except the function-valued callbacks, which are modelled separately). -/
def barOptionsData (theme : ThemeColors) : List (String × JValue) :=
  [ ("maintainAspectRatio", JValue.bool false)
  , ("responsive", JValue.bool true)
  , ("scales", JValue.obj
      [ ("xAxes", JValue.arr
          [ JValue.obj
              [ ("type", JValue.str "time")
              , ("offset", JValue.bool true)
              , ("gridLines", JValue.obj [("display", JValue.bool false)])
              , ("stacked", JValue.bool true)
              , ("ticks", JValue.obj
                  [ ("autoSkip", JValue.bool false)
                  , ("source", JValue.str "data")
                  , ("backdropColor", JValue.str "white")
                  , ("fontColor", JValue.str theme.textColorPrimary)
                  , ("fontSize", JValue.num 11)
                  , ("maxRotation", JValue.num 0)
                  , ("minRotation", JValue.num 0) ])
              , ("bounds", JValue.str "data")
              , ("time", JValue.obj
                  [ ("unit", JValue.str "minute")
                  , ("displayFormats", JValue.obj [("minute", JValue.str "x")]) ]) ] ])
      , ("yAxes", JValue.arr
          [ JValue.obj
              [ ("position", JValue.str "right")
              , ("gridLines", JValue.obj
                  [ ("color", JValue.str theme.borderFaintColor)
                  , ("drawBorder", JValue.bool false)
                  , ("tickMarkLength", JValue.num 0)
                  , ("zeroLineWidth", JValue.num 0) ])
              , ("ticks", JValue.obj
                  [ ("maxTicksLimit", JValue.num 6)
                  , ("fontColor", JValue.str theme.textColorPrimary)
                  , ("fontSize", JValue.num 11)
                  , ("padding", JValue.num 8)
                  , ("min", JValue.num 0) ]) ] ]) ])
  , ("animation", JValue.obj [("duration", JValue.num 0)])
  , ("plugins", JValue.obj
      [ ("ZebraStripes", JValue.obj
          [ ("stripeColor", JValue.str theme.chartStripesColor) ]) ]) ]

/-- The configuration handed to the rendering engine when data is present:
the normalized datasets and the merged options object. -/
structure RenderConfiguration where
  datasets : List NormalizedDataset
  options : List (String × JValue)

/-- The `BarChart` pipeline: normalize the datasets, merge the caller's
options over the computed defaults, and either signal "no data" (`none`,
the `<NoMetrics/>` branch) when no dataset survived the filter, or produce
the configuration handed to `<Chart/>`. -/
def barChart (theme : ThemeColors) (props : BarChartProps) : Option RenderConfiguration :=
  let chartDatasets := normalizeDatasets props.datasets
  let options := mergeFields (barOptionsData theme) props.customOptions
  if chartDatasets.isEmpty then none
  else some { datasets := chartDatasets, options := options }

/-! ## Time-axis labels and tooltip callbacks -/

/-- The `formatTimeLabels` callback.  `hhmm` stands for the external
`moment(parseInt(timestamp)).format("HH:mm")` local-time formatter; the
theorems quantify over it. -/
def formatTimeLabels (hhmm : String → String) (timeLabelStep : Nat)
    (timestamp : String) (index : Nat) : String :=
  let label := hhmm timestamp
  let offset := "     "
  if index = 0 then offset ++ label
  else if index = 60 then label ++ offset
  else if index % timeLabelStep = 0 then label else ""

/-- The tooltip `title` callback: `dateParse` stands for the external
`new Date(xLabel).getTime()` conversion of the hovered tick's label, and
`now` for `new Date().getTime()` at hover time.  Future timestamps yield
the empty title; otherwise the literal label (the template string
interpolation of a string is itself). -/
def tooltipTitle (dateParse : String → Int) (now : Int) (xLabel : String) : String :=
  if dateParse xLabel > now then "" else xLabel

/-- The slice of a dataset that the tooltip `label` callbacks read
(`datasets[datasetIndex].label` and `.data[index]`). -/
structure TooltipDataset where
  label : String
  data : List ChartPoint
deriving DecidableEq

/-- The `memoryOptions` tooltip `label` callback:
```${label}: ${bytesToUnits(parseInt(value.y.toString()), 3)}``` — the
point's value is truncated to an integer by `parseInt` and scaled with
precision 3.  `scaler` stands for the byte-unit scaler; out-of-range
indices (a JS runtime error) are modelled as `none`. -/
def memoryTooltipLabel (scaler : Int → Nat → String)
    (datasetIndex idx : Nat) (datasets : List TooltipDataset) : Option String :=
  match datasets[datasetIndex]? with
  | none => none
  | some ds =>
    match ds.data[idx]? with
    | none => none
    | some pt => some (ds.label ++ ": " ++ scaler (jsTrunc pt.y) 3)

/-- The `cpuOptions` tooltip `label` callback:
```${label}: ${parseFloat(value.y as string).toPrecision(2)}``` — at
runtime `value.y` is a number, so `parseFloat` returns it unchanged and
`toPrec` (standing for `Number.prototype.toPrecision`) receives the point's
value and the precision 2. -/
def cpuTooltipLabel (toPrec : ℚ → Nat → String)
    (datasetIndex idx : Nat) (datasets : List TooltipDataset) : Option String :=
  match datasets[datasetIndex]? with
  | none => none
  | some ds =>
    match ds.data[idx]? with
    | none => none
    | some pt => some (ds.label ++ ": " ++ toPrec pt.y 2)

/-! ## Numeric axis tick callbacks -/

/-- Core of the `memoryOptions` y-axis tick callback, after
`value = parseFloat(String(value))`: `none` models `NaN`.  A falsy value
(`NaN` or `0`) renders as `0`; a value below `1` as `value.toFixed(3)`;
otherwise through the byte-unit scaler at its default precision (`scaler`
stands for `value => bytesToUnits(value)`). -/
def memoryTicksCore (scaler : ℚ → String) : Option ℚ → String
  | none => "0"
  | some value =>
    if value = 0 then "0"
    else if value < 1 then toFixed value 3
    else scaler value

/-- The `memoryOptions` y-axis tick callback on the raw axis value's string
form. -/
def memoryTicksCallback (scaler : ℚ → String) (raw : String) : String :=
  memoryTicksCore scaler (parseFloat raw)

/-- The `cpuOptions` y-axis tick callback: `0` renders as `0`; then three
decimals below `10`, two below `100`, one from `100` on. -/
def cpuTicksCallback (value : ℚ) : String :=
  if value = 0 then "0"
  else if value < 10 then toFixed value 3
  else if value < 100 then toFixed value 2
  else toFixed value 1

/-! ## Colors and getBarColor -/

/-- A parsed color: red/green/blue channels and an alpha component, the
state of a `color`-library `Color` object. -/
structure ColorV where
  r : Nat
  g : Nat
  b : Nat
  a : ℚ
deriving DecidableEq

/-- Serialization in the style of the `color` library's `.string()`:
`rgb(r, g, b)` for an opaque color, `rgba(r, g, b, a)` otherwise, with the
alpha printed in shortest decimal form. -/
def serializeColor (c : ColorV) : String :=
  if c.a = 1 then
    "rgb(" ++ String.mk (natDigits c.r) ++ ", " ++ String.mk (natDigits c.g)
      ++ ", " ++ String.mk (natDigits c.b) ++ ")"
  else
    "rgba(" ++ String.mk (natDigits c.r) ++ ", " ++ String.mk (natDigits c.g)
      ++ ", " ++ String.mk (natDigits c.b) ++ ", " ++ decimalString c.a ++ ")"

/-- Parse one decimal-digit run as a channel value, returning the rest of
the input. -/
def parseChannel (cs : List Char) : Option (Nat × List Char) :=
  let ds := cs.takeWhile isDigitChar
  if ds = [] then none else some (parseNatFrom 0 ds, cs.dropWhile isDigitChar)

/-- Expect a comma followed by optional blanks. -/
def parseComma (cs : List Char) : Option (List Char) :=
  match cs with
  | ',' :: rest => some (rest.dropWhile (fun c => c = ' '))
  | _ => none

/-- Parse a non-negative decimal number `digits[.digits]`, returning the
rest of the input. -/
def parseDecimal (cs : List Char) : Option (ℚ × List Char) :=
  let ip := cs.takeWhile isDigitChar
  if ip = [] then none
  else
    let rest := cs.dropWhile isDigitChar
    match rest with
    | '.' :: rest' =>
      let fp := rest'.takeWhile isDigitChar
      if fp = [] then none
      else some (mkRat (parseNatFrom 0 ip * 10 ^ fp.length + parseNatFrom 0 fp) (10 ^ fp.length),
                 rest'.dropWhile isDigitChar)
    | _ => some ((mkRat (parseNatFrom 0 ip) 1 : ℚ), rest)

/-- Parse the tail `r, g, b` of an `rgb(...)` form, expecting `close` to
follow the last channel. -/
def parseRgbTail (cs : List Char) : Option (Nat × Nat × Nat × List Char) :=
  match parseChannel cs with
  | none => none
  | some (r, cs₁) =>
    match parseComma cs₁ with
    | none => none
    | some cs₂ =>
      match parseChannel cs₂ with
      | none => none
      | some (g, cs₃) =>
        match parseComma cs₃ with
        | none => none
        | some cs₄ =>
          match parseChannel cs₄ with
          | none => none
          | some (b, cs₅) => some (r, g, b, cs₅)

/-- Parse of a color string in `rgb(r, g, b)` or `rgba(r, g, b, a)` form —
the color-representation domain of this model of the `color` library's
`Color(...)` constructor (`none` models the constructor throwing on an
unparseable color, the fatal condition of spec §7). -/
def parseColor (s : String) : Option ColorV :=
  match s.data with
  | 'r' :: 'g' :: 'b' :: 'a' :: '(' :: rest =>
    (match parseRgbTail (rest.dropWhile (fun c => c = ' ')) with
     | none => none
     | some (r, g, b, cs) =>
       match parseComma cs with
       | none => none
       | some cs' =>
         match parseDecimal cs' with
         | none => none
         | some (a, cs'') => if cs'' = [')'] then some ⟨r, g, b, a⟩ else none)
  | 'r' :: 'g' :: 'b' :: '(' :: rest =>
    (match parseRgbTail (rest.dropWhile (fun c => c = ' ')) with
     | none => none
     | some (r, g, b, cs) => if cs = [')'] then some ⟨r, g, b, 1⟩ else none)
  | _ => none

/-- The `getBarColor` scriptable option on a dataset's border color:
`Color(color).alpha(0.2).string()` — parse the color, set its alpha to
`0.2`, serialize it back.  `none` models the `Color` constructor throwing
on an invalid color. -/
def getBarColor (borderColor : String) : Option String :=
  match parseColor borderColor with
  | none => none
  | some c => some (serializeColor { c with a := mkRat 1 5 })

/-! ## Lemmas: decimal digits -/

theorem natDigitsF_of_lt : ∀ n f, n < f → natDigitsF f n = natDigits n := by
  intro n
  induction n using Nat.strong_induction_on with
  | _ n ih =>
    intro f hf
    match f, hf with
    | f' + 1, hf =>
      by_cases h10 : n < 10
      · simp [natDigitsF, natDigits, h10]
      · have hdiv : n / 10 < n := Nat.div_lt_self (by omega) (by omega)
        have h1 : natDigitsF f' (n / 10) = natDigits (n / 10) :=
          ih _ hdiv _ (by omega)
        have h2 : natDigitsF n (n / 10) = natDigits (n / 10) :=
          ih _ hdiv _ (by omega)
        simp [natDigitsF, natDigits, h10, h1, h2]

/-- Unfolding rule for `natDigits`, in the shape of its intended recursion. -/
theorem natDigits_eq (n : Nat) :
    natDigits n =
      if n < 10 then [digitChar n]
      else natDigits (n / 10) ++ [digitChar (n % 10)] := by
  by_cases h10 : n < 10
  · simp [natDigits, natDigitsF, h10]
  · have hdiv : n / 10 < n := Nat.div_lt_self (by omega) (by omega)
    have hstep : natDigits n = natDigitsF n (n / 10) ++ [digitChar (n % 10)] := by
      show natDigitsF (n + 1) n = _
      rw [show natDigitsF (n + 1) n
            = if n < 10 then [digitChar n]
              else natDigitsF n (n / 10) ++ [digitChar (n % 10)] from rfl]
      simp [h10]
    rw [hstep, natDigitsF_of_lt _ _ hdiv]
    simp [h10]

theorem digitChar_isDigit {d : Nat} (h : d < 10) : (digitChar d).isDigit = true := by
  interval_cases d <;> decide

theorem digitChar_toNat {d : Nat} (h : d < 10) : (digitChar d).toNat - 48 = d := by
  interval_cases d <;> decide

theorem natDigits_ne_nil (n : Nat) : natDigits n ≠ [] := by
  rw [natDigits_eq]
  by_cases h : n < 10 <;> simp [h]

theorem natDigits_all_digits (n : Nat) : (natDigits n).all Char.isDigit = true := by
  induction n using Nat.strong_induction_on with
  | _ n ih =>
    rw [natDigits_eq]
    by_cases h10 : n < 10
    · simp [h10, digitChar_isDigit h10]
    · have hdiv : n / 10 < n := Nat.div_lt_self (by omega) (by omega)
      have hmod : n % 10 < 10 := Nat.mod_lt _ (by omega)
      simp only [h10, if_false, List.all_append]
      simp [ih _ hdiv, digitChar_isDigit hmod]

theorem parseNatFrom_append (acc : Nat) (l₁ l₂ : List Char) :
    parseNatFrom acc (l₁ ++ l₂) = parseNatFrom (parseNatFrom acc l₁) l₂ := by
  induction l₁ generalizing acc with
  | nil => rfl
  | cons c cs ih => exact ih _

theorem parseNatFrom_natDigits (n : Nat) :
    ∀ acc, parseNatFrom acc (natDigits n) = acc * 10 ^ (natDigits n).length + n := by
  induction n using Nat.strong_induction_on with
  | _ n ih =>
    intro acc
    have hsingle : ∀ (a : Nat) (c : Char), parseNatFrom a [c] = a * 10 + (c.toNat - 48) :=
      fun a c => rfl
    rw [natDigits_eq]
    by_cases h10 : n < 10
    · simp only [h10, if_true, hsingle, digitChar_toNat h10,
        List.length_singleton, pow_one]
    · have hdiv : n / 10 < n := Nat.div_lt_self (by omega) (by omega)
      have hmod : n % 10 < 10 := Nat.mod_lt _ (by omega)
      simp only [h10, if_false]
      rw [parseNatFrom_append, ih _ hdiv acc, hsingle, digitChar_toNat hmod]
      simp only [List.length_append, List.length_singleton]
      rw [pow_succ, ← mul_assoc]
      generalize acc * 10 ^ (natDigits (n / 10)).length = A
      omega

theorem parseNatFrom_zero_natDigits (n : Nat) : parseNatFrom 0 (natDigits n) = n := by
  have h := parseNatFrom_natDigits n 0
  simpa using h

theorem parseNatL_natDigits (n : Nat) : parseNatL (natDigits n) = some n := by
  simp [parseNatL, natDigits_ne_nil, natDigits_all_digits, parseNatFrom_zero_natDigits]

/-! ## Lemmas: takeWhile / dropWhile over digit runs -/

theorem takeWhile_append_of_all {p : Char → Bool} {l m : List Char}
    (h : l.all p = true) : (l ++ m).takeWhile p = l ++ m.takeWhile p := by
  induction l with
  | nil => simp
  | cons c cs ih =>
    simp only [List.all_cons, Bool.and_eq_true] at h
    simp [List.takeWhile_cons, h.1, ih h.2]

theorem dropWhile_append_of_all {p : Char → Bool} {l m : List Char}
    (h : l.all p = true) : (l ++ m).dropWhile p = m.dropWhile p := by
  induction l with
  | nil => simp
  | cons c cs ih =>
    simp only [List.all_cons, Bool.and_eq_true] at h
    simp [List.dropWhile_cons, h.1, ih h.2]

theorem isDigit_not_space {c : Char} (h : c.isDigit = true) : ¬(c = ' ') := by
  intro he
  subst he
  simp at h

theorem natDigits_all_isDigitChar (n : Nat) : (natDigits n).all isDigitChar = true := by
  have h := natDigits_all_digits n
  simpa [isDigitChar] using h

theorem dropSpaces_natDigits_append (n : Nat) (m : List Char) :
    (natDigits n ++ m).dropWhile (fun c => c = ' ') = natDigits n ++ m := by
  rcases hd : natDigits n with _ | ⟨c, cs⟩
  · exact absurd hd (natDigits_ne_nil n)
  · have hall := natDigits_all_digits n
    rw [hd] at hall
    simp only [List.all_cons, Bool.and_eq_true] at hall
    have : ¬(c = ' ') := isDigit_not_space hall.1
    simp [List.dropWhile_cons, this]

/-! ## Lemmas: color channel parsing round trip -/

theorem parseChannel_natDigits (n : Nat) (rest : List Char)
    (h : ∀ c, rest.head? = some c → isDigitChar c = false) :
    parseChannel (natDigits n ++ rest) = some (n, rest) := by
  have htake : (natDigits n ++ rest).takeWhile isDigitChar = natDigits n := by
    rw [takeWhile_append_of_all (natDigits_all_isDigitChar n)]
    rcases rest with _ | ⟨c, cs⟩
    · simp
    · have := h c rfl
      simp [List.takeWhile_cons, this]
  have hdrop : (natDigits n ++ rest).dropWhile isDigitChar = rest := by
    rw [dropWhile_append_of_all (natDigits_all_isDigitChar n)]
    rcases rest with _ | ⟨c, cs⟩
    · simp
    · have := h c rfl
      simp [List.dropWhile_cons, this]
  simp [parseChannel, htake, hdrop, natDigits_ne_nil, parseNatFrom_zero_natDigits]

theorem parseRgbTail_natDigits (r g b : Nat) (rest : List Char)
    (h : ∀ c, rest.head? = some c → isDigitChar c = false) :
    parseRgbTail (natDigits r ++ ',' :: ' ' ::
        (natDigits g ++ ',' :: ' ' :: (natDigits b ++ rest)))
      = some (r, g, b, rest) := by
  have h1 := parseChannel_natDigits r
    (',' :: ' ' :: (natDigits g ++ ',' :: ' ' :: (natDigits b ++ rest)))
    (by intro c hc; simp at hc; subst hc; decide)
  have h2 := parseChannel_natDigits g (',' :: ' ' :: (natDigits b ++ rest))
    (by intro c hc; simp at hc; subst hc; decide)
  have h3 := parseChannel_natDigits b rest h
  have hcomma : ∀ (m : Nat) (t : List Char),
      parseComma (',' :: ' ' :: (natDigits m ++ t)) = some (natDigits m ++ t) := by
    intro m t
    show some ((' ' :: (natDigits m ++ t)).dropWhile (fun c => c = ' '))
        = some (natDigits m ++ t)
    have hstep : (' ' :: (natDigits m ++ t)).dropWhile (fun c => c = ' ')
        = (natDigits m ++ t).dropWhile (fun c => c = ' ') := by
      rw [List.dropWhile_cons]
      simp
    rw [hstep, dropSpaces_natDigits_append m t]
  simp only [parseRgbTail, h1, h2, h3, hcomma]

theorem serializeColor_fifth_data (r g b : Nat) :
    (serializeColor ⟨r, g, b, mkRat 1 5⟩).data =
      'r' :: 'g' :: 'b' :: 'a' :: '(' ::
        (natDigits r ++ ',' :: ' ' ::
          (natDigits g ++ ',' :: ' ' ::
            (natDigits b ++ [',', ' ', '0', '.', '2', ')']))) := by
  simp only [serializeColor]
  rw [if_neg (by decide : ¬(mkRat 1 5 = (1 : ℚ)))]
  rw [show decimalString (mkRat 1 5) = "0.2" from by decide]
  simp [String.data_append, List.append_assoc]

theorem parseColor_serializeColor_fifth (r g b : Nat) :
    parseColor (serializeColor ⟨r, g, b, mkRat 1 5⟩) = some ⟨r, g, b, mkRat 1 5⟩ := by
  have hdata := serializeColor_fifth_data r g b
  have htail := parseRgbTail_natDigits r g b [',', ' ', '0', '.', '2', ')']
    (by intro c hc; simp at hc; subst hc; decide)
  simp only [parseColor, hdata, dropSpaces_natDigits_append, htail,
    show parseComma [',', ' ', '0', '.', '2', ')'] = some ['0', '.', '2', ')'] from by decide,
    show parseDecimal ['0', '.', '2', ')'] = some (mkRat 1 5, [')']) from by decide]
  simp

/-! ## Lemmas: lodash merge -/

theorem lookupField_none_of_not_mem {l : List (String × JValue)} {k : String}
    (h : k ∉ l.map Prod.fst) : lookupField l k = none := by
  induction l with
  | nil => rfl
  | cons p rest ih =>
    obtain ⟨k', v⟩ := p
    simp only [List.map_cons, List.mem_cons] at h
    push_neg at h
    have h1 : ¬(k' = k) := fun he => h.1 he.symm
    simp [lookupField, h1, ih h.2]

theorem lookupField_setField_self (d : List (String × JValue)) (k : String) (v : JValue) :
    lookupField (setField d k v) k = some v := by
  induction d with
  | nil => simp [setField, lookupField]
  | cons p rest ih =>
    obtain ⟨k', v'⟩ := p
    by_cases hk : k' = k
    · simp [setField, hk, lookupField]
    · simp [setField, hk, lookupField, ih]

theorem lookupField_setField_ne (d : List (String × JValue)) (k k' : String) (v : JValue)
    (h : ¬(k' = k)) : lookupField (setField d k v) k' = lookupField d k' := by
  have hks : ¬(k = k') := fun he => h he.symm
  induction d with
  | nil => simp [setField, lookupField, hks]
  | cons p rest ih =>
    obtain ⟨k'', v''⟩ := p
    by_cases hk : k'' = k
    · have h' : ¬(k'' = k') := fun he => h (he.symm.trans hk)
      simp [setField, hk, lookupField, h', hks]
    · simp [setField, hk, lookupField, ih]

theorem mergeFields_lookupField :
    ∀ (s d : List (String × JValue)) (k : String), (s.map Prod.fst).Nodup →
      lookupField (mergeFields d s) k =
        match lookupField s k with
        | none => lookupField d k
        | some sv =>
          match lookupField d k with
          | none => some sv
          | some dv => some (lodashMerge dv sv) := by
  intro s
  induction s with
  | nil =>
    intro d k _
    simp [mergeFields, lookupField]
  | cons p rest ih =>
    intro d k hnodup
    obtain ⟨k₁, sv₁⟩ := p
    simp only [List.map_cons, List.nodup_cons] at hnodup
    obtain ⟨hk₁, hnd⟩ := hnodup
    simp only [mergeFields]
    by_cases hk : k₁ = k
    · subst hk
      have hrest : lookupField rest k₁ = none := lookupField_none_of_not_mem hk₁
      cases hld : lookupField d k₁ with
      | none =>
        rw [ih _ _ hnd, hrest, lookupField_setField_self]
        simp [lookupField, hld]
      | some dv =>
        rw [ih _ _ hnd, hrest, lookupField_setField_self]
        simp [lookupField, hld]
    · rw [ih _ _ hnd]
      have hset := lookupField_setField_ne d k₁ k
        (match lookupField d k₁ with
         | some dv => lodashMerge dv sv₁
         | none => sv₁) (fun he => hk he.symm)
      rw [hset]
      have hcons : lookupField ((k₁, sv₁) :: rest) k = lookupField rest k := by
        simp [lookupField, hk]
      rw [hcons]

theorem mergeArrays_getElem? :
    ∀ (s d : List JValue) (i : Nat),
      (mergeArrays d s)[i]? =
        match s[i]? with
        | some sv =>
          match d[i]? with
          | some dv => some (lodashMerge dv sv)
          | none => some sv
        | none => d[i]? := by
  intro s
  induction s with
  | nil =>
    intro d i
    simp [mergeArrays]
  | cons sv rest ih =>
    intro d i
    cases d with
    | nil =>
      cases i with
      | zero => simp [mergeArrays]
      | succ j =>
        have h := ih [] j
        simp only [mergeArrays, List.getElem?_cons_succ]
        rw [h]
        simp
    | cons dv dt =>
      cases i with
      | zero => simp [mergeArrays]
      | succ j =>
        have h := ih dt j
        simp only [mergeArrays, List.getElem?_cons_succ]
        rw [h]

theorem lodashMerge_obj (d s : List (String × JValue)) :
    lodashMerge (JValue.obj d) (JValue.obj s) = JValue.obj (mergeFields d s) := by
  simp [lodashMerge]

theorem lodashMerge_arr (d s : List JValue) :
    lodashMerge (JValue.arr d) (JValue.arr s) = JValue.arr (mergeArrays d s) := by
  simp [lodashMerge]

theorem lodashMerge_scalar (dv sv : JValue) (h : isMergeable sv = false) :
    lodashMerge dv sv = sv := by
  cases dv <;> cases sv <;> simp_all [isMergeable, lodashMerge]

/-! ## Lemmas: the dataset normalizer -/

theorem normalizeDatasets_map_data (l : List ChartDataset) :
    (normalizeDatasets l).map NormalizedDataset.data
      = (l.filter (fun d => !d.data.isEmpty)).map ChartDataset.data := by
  simp only [normalizeDatasets, List.map_map]
  rfl

theorem mem_normalizeDatasets_data_ne_nil {l : List ChartDataset} {n : NormalizedDataset}
    (h : n ∈ normalizeDatasets l) : n.data ≠ [] := by
  simp only [normalizeDatasets, List.mem_map] at h
  obtain ⟨d, hd, rfl⟩ := h
  have := (List.mem_filter.mp hd).2
  simp only [Bool.not_eq_true'] at this
  have hne : d.data ≠ [] := by
    intro he
    rw [he] at this
    simp at this
  exact hne

theorem normalizeDataset_mem_of_mem {l : List ChartDataset} {d : ChartDataset}
    (hd : d ∈ l) (hne : d.data ≠ []) : normalizeDataset d ∈ normalizeDatasets l := by
  refine List.mem_map_of_mem _ (List.mem_filter.mpr ⟨hd, ?_⟩)
  simp [List.isEmpty_iff, hne]

theorem normalizeDatasets_eq_nil_iff (l : List ChartDataset) :
    normalizeDatasets l = [] ↔ ∀ d ∈ l, d.data = [] := by
  constructor
  · intro h d hd
    by_contra hne
    exact absurd h (List.ne_nil_of_mem (normalizeDataset_mem_of_mem hd hne))
  · intro h
    simp only [normalizeDatasets, List.map_eq_nil_iff, List.filter_eq_nil_iff]
    intro d hd
    simp [List.isEmpty_iff, h d hd]

/-! ## Claim theorems -/

/-- C1: for every input dataset sequence the normalized output contains
exactly the datasets whose point sequence is non-empty, in their original
order, with their points unchanged (first conjunct: the data sequences of
the output are precisely those of the non-empty inputs; second conjunct: no
empty dataset survives), and each retained dataset is augmented with
`barPercentage = 1`, `categoryPercentage = 1` and the top-edge border
emphasis `{top: 3}` (and the bar chart kind) unless the caller already
specified that attribute, in which case the caller's value wins
(`Option.getD`: shallow per-dataset override). -/
theorem C1_normalizer_spec (l : List ChartDataset) :
    ((normalizeDatasets l).map NormalizedDataset.data
        = (l.filter (fun d => !d.data.isEmpty)).map ChartDataset.data)
    ∧ (∀ n ∈ normalizeDatasets l, n.data ≠ [])
    ∧ (∀ d ∈ l, d.data ≠ [] → normalizeDataset d ∈ normalizeDatasets l)
    ∧ (∀ n ∈ normalizeDatasets l, ∃ d ∈ l, d.data ≠ []
        ∧ n.data = d.data ∧ n.label = d.label ∧ n.borderColor = d.borderColor
        ∧ n.type = d.type.getD ChartKind.BAR
        ∧ n.borderWidth = d.borderWidth.getD { top := 3 }
        ∧ n.barPercentage = d.barPercentage.getD 1
        ∧ n.categoryPercentage = d.categoryPercentage.getD 1) := by
  refine ⟨normalizeDatasets_map_data l, fun n hn => mem_normalizeDatasets_data_ne_nil hn,
    fun d hd hne => normalizeDataset_mem_of_mem hd hne, ?_⟩
  intro n hn
  have hne := mem_normalizeDatasets_data_ne_nil hn
  simp only [normalizeDatasets, List.mem_map] at hn
  obtain ⟨d, hd, rfl⟩ := hn
  exact ⟨d, (List.mem_filter.mp hd).1, hne, rfl, rfl, rfl, rfl, rfl, rfl, rfl⟩

theorem C1_normalizer_spec_witness :
    normalizeDataset ⟨some "cpu", some "red", [⟨0, 1⟩], none, none, some (mkRat 1 2), none⟩
      ∈ normalizeDatasets
          [⟨some "cpu", some "red", [⟨0, 1⟩], none, none, some (mkRat 1 2), none⟩,
           ⟨none, none, [], none, none, none, none⟩] :=
  (C1_normalizer_spec _).2.2.1 _ (by simp) (by decide)

/-- C2: if after filtering zero datasets remain, `BarChart` signals the
"no data" condition (`none`, rendered as the placeholder view) instead of a
configuration; if at least one dataset is non-empty it produces the
configuration built from exactly the normalized (non-empty) datasets and
the merged options. -/
theorem C2_no_data_spec (theme : ThemeColors) (props : BarChartProps) :
    ((∀ d ∈ props.datasets, d.data = []) → barChart theme props = none)
    ∧ (∀ cfg, barChart theme props = some cfg →
        cfg.datasets = normalizeDatasets props.datasets ∧ cfg.datasets ≠ []
        ∧ (∀ n ∈ cfg.datasets, n.data ≠ []))
    ∧ ((∃ d ∈ props.datasets, d.data ≠ []) →
        barChart theme props
          = some ⟨normalizeDatasets props.datasets,
                  mergeFields (barOptionsData theme) props.customOptions⟩) := by
  refine ⟨?_, ?_, ?_⟩
  · intro hall
    have hnil : normalizeDatasets props.datasets = [] :=
      (normalizeDatasets_eq_nil_iff _).mpr hall
    simp [barChart, hnil]
  · intro cfg hcfg
    by_cases hemp : (normalizeDatasets props.datasets).isEmpty
    · simp [barChart, hemp] at hcfg
    · simp only [barChart, hemp, Bool.false_eq_true, if_false, Option.some.injEq] at hcfg
      subst hcfg
      refine ⟨rfl, ?_, fun n hn => mem_normalizeDatasets_data_ne_nil hn⟩
      intro he
      have he' : normalizeDatasets props.datasets = [] := he
      rw [he'] at hemp
      simp at hemp
  · rintro ⟨d, hd, hne⟩
    have hmem := normalizeDataset_mem_of_mem hd hne
    have hnn : ¬((normalizeDatasets props.datasets).isEmpty = true) := by
      rcases h : normalizeDatasets props.datasets with _ | _
      · rw [h] at hmem
        simp at hmem
      · simp
    simp [barChart, hnn]

theorem C2_no_data_spec_witness :
    barChart ⟨"white", "gray", "stripe"⟩
        ⟨none, 10, [⟨some "cpu", none, [⟨0, 1⟩], none, none, none, none⟩], []⟩
      = some ⟨normalizeDatasets [⟨some "cpu", none, [⟨0, 1⟩], none, none, none, none⟩],
              mergeFields (barOptionsData ⟨"white", "gray", "stripe"⟩) []⟩ :=
  (C2_no_data_spec _ _).2.2
    ⟨⟨some "cpu", none, [⟨0, 1⟩], none, none, none, none⟩, by simp, by decide⟩

/-- C3: the time-axis label formatter returns, for every timestamp and for
every behaviour of the external `HH:mm` formatter: at index 0 the label
prefixed with the 5-space padding; at index 60 the label suffixed with the
padding (the edge rules are tested first, in that order, before the step
rule); at any other index the bare label exactly when the index is a
multiple of the label step (default 10) and `""` otherwise — in particular
index 25 gives `""` and index 30 the bare label at step 10. -/
theorem C3_time_label_spec (hhmm : String → String) (ts : String) :
    (formatTimeLabels hhmm 10 ts 0 = "     " ++ hhmm ts)
    ∧ (formatTimeLabels hhmm 10 ts 60 = hhmm ts ++ "     ")
    ∧ (∀ step i, i ≠ 0 → i ≠ 60 → i % step = 0 → formatTimeLabels hhmm step ts i = hhmm ts)
    ∧ (∀ step i, i ≠ 0 → i ≠ 60 → i % step ≠ 0 → formatTimeLabels hhmm step ts i = "")
    ∧ (formatTimeLabels hhmm 10 ts 25 = "")
    ∧ (formatTimeLabels hhmm 10 ts 30 = hhmm ts) := by
  refine ⟨by simp [formatTimeLabels], by simp [formatTimeLabels], ?_, ?_,
    by simp [formatTimeLabels], by simp [formatTimeLabels]⟩
  · intro step i h0 h60 hs
    simp [formatTimeLabels, h0, h60, hs]
  · intro step i h0 h60 hs
    simp [formatTimeLabels, h0, h60, hs]

theorem C3_time_label_spec_witness :
    formatTimeLabels (fun _ => "12:30") 10 "1640995200000" 30 = "12:30"
    ∧ formatTimeLabels (fun _ => "12:30") 10 "1640995200000" 25 = "" :=
  ⟨(C3_time_label_spec (fun _ => "12:30") "1640995200000").2.2.1 10 30
      (by decide) (by decide) (by decide),
   (C3_time_label_spec (fun _ => "12:30") "1640995200000").2.2.2.1 10 25
      (by decide) (by decide) (by decide)⟩

/-- C4: for every behaviour of the external `Date` parser and every
hover time `now`, the tooltip title is `""` when the tick's associated
timestamp is strictly greater than `now`, and the literal label when the
timestamp is at or before `now`. -/
theorem C4_tooltip_title_spec (dateParse : String → Int) (now : Int) (xLabel : String) :
    (dateParse xLabel > now → tooltipTitle dateParse now xLabel = "")
    ∧ (dateParse xLabel ≤ now → tooltipTitle dateParse now xLabel = xLabel) := by
  constructor
  · intro h
    simp [tooltipTitle, h]
  · intro h
    simp [tooltipTitle, not_lt.mpr h]

theorem C4_tooltip_title_spec_witness :
    tooltipTitle (fun _ => 10) 5 "12:30" = ""
    ∧ tooltipTitle (fun _ => 3) 5 "12:30" = "12:30" :=
  ⟨(C4_tooltip_title_spec (fun _ => 10) 5 "12:30").1 (by decide),
   (C4_tooltip_title_spec (fun _ => 3) 5 "12:30").2 (by decide)⟩

/-- C5 (counterexample to the claim as stated): at the fractional point
value `0.5`, the byte-variant tooltip body is NOT the label followed by the
byte-unit scaling of the value itself with 3 significant digits — the code
first truncates the value with `parseInt(value.y.toString())`, so it scales
`0` rather than `0.5` (`bytesToUnits` here is the spec-modelled scaler). -/
theorem C5_tooltip_label_counterexample :
    memoryTooltipLabel (fun i p => bytesToUnits (mkRat i 1) p) 0 0
        [⟨"memory", [⟨0, mkRat 1 2⟩]⟩]
      ≠ some ("memory" ++ ": " ++ bytesToUnits (mkRat 1 2) 3) := by decide

/-- C5 (amended): for every dataset label and point value reachable by the
hovered indices, the tooltip body line is `"<label>: <formatted value>"`,
where for byte-valued metrics the value is first truncated to an integer
(`parseInt` of its string form, `jsTrunc`) and then formatted through the
byte-unit scaler with 3 significant digits, and for decimal/CPU-valued
metrics the (untruncated) value is formatted to 2 significant digits
(`toPrec`, standing for `toPrecision`); both quantified over every
behaviour of the external formatter. -/
theorem C5_tooltip_label_spec :
    (∀ (scaler : Int → Nat → String) (di i : Nat) (dss : List TooltipDataset) ds pt,
        dss[di]? = some ds → ds.data[i]? = some pt →
        memoryTooltipLabel scaler di i dss
          = some (ds.label ++ ": " ++ scaler (jsTrunc pt.y) 3))
    ∧ (∀ (toPrec : ℚ → Nat → String) (di i : Nat) (dss : List TooltipDataset) ds pt,
        dss[di]? = some ds → ds.data[i]? = some pt →
        cpuTooltipLabel toPrec di i dss
          = some (ds.label ++ ": " ++ toPrec pt.y 2)) := by
  constructor
  · intro scaler di i dss ds pt h1 h2
    simp [memoryTooltipLabel, h1, h2]
  · intro toPrec di i dss ds pt h1 h2
    simp [cpuTooltipLabel, h1, h2]

theorem C5_tooltip_label_spec_witness :
    memoryTooltipLabel (fun i p => bytesToUnits (mkRat i 1) p) 0 0
        [⟨"memory", [⟨0, mkRat 1 2⟩]⟩]
      = some "memory: 0 B"
    ∧ cpuTooltipLabel (fun _ _ => "0.50") 0 0 [⟨"cpu", [⟨0, mkRat 1 2⟩]⟩]
      = some "cpu: 0.50" := by
  constructor
  · rw [C5_tooltip_label_spec.1 (fun i p => bytesToUnits (mkRat i 1) p) 0 0
        [⟨"memory", [⟨0, mkRat 1 2⟩]⟩] ⟨"memory", [⟨0, mkRat 1 2⟩]⟩ ⟨0, mkRat 1 2⟩
        (by decide) (by decide)]
    decide
  · rw [C5_tooltip_label_spec.2 (fun _ _ => "0.50") 0 0
        [⟨"cpu", [⟨0, mkRat 1 2⟩]⟩] ⟨"cpu", [⟨0, mkRat 1 2⟩]⟩ ⟨0, mkRat 1 2⟩
        (by decide) (by decide)]
    decide

/-- C6 (counterexample to the claim as stated): lodash `merge` does not
replace a default array wholesale by the override array — merging the
override array `[9]` into the default array `[1, 2]` produces `[9, 2]`,
not `[9]`. -/
theorem C6_merge_counterexample :
    lodashMerge (JValue.arr [JValue.num 1, JValue.num 2]) (JValue.arr [JValue.num 9])
        = JValue.arr [JValue.num 9, JValue.num 2]
    ∧ lodashMerge (JValue.arr [JValue.num 1, JValue.num 2]) (JValue.arr [JValue.num 9])
        ≠ JValue.arr [JValue.num 9] := by
  constructor
  · simp [lodashMerge, mergeArrays]
  · simp [lodashMerge, mergeArrays]

/-- C6 (amended): merging caller overrides onto the computed defaults is a
deep merge: objects combine key-by-key at unbounded depth (the recursive
`lookupField` characterization), caller values win at every point of
conflict on non-mergeable (scalar) values, options present only in the
override are preserved unchanged (the `none` case of the characterization);
but arrays are NOT atomic: an override array is merged into the default
array index-by-index — override elements recursively replace default
elements at the same index and default elements past the override's length
are retained. -/
theorem C6_merge_spec :
    (∀ d s, lodashMerge (JValue.obj d) (JValue.obj s) = JValue.obj (mergeFields d s))
    ∧ (∀ s d k, (s.map Prod.fst).Nodup →
        lookupField (mergeFields d s) k =
          match lookupField s k with
          | none => lookupField d k
          | some sv =>
            match lookupField d k with
            | none => some sv
            | some dv => some (lodashMerge dv sv))
    ∧ (∀ dv sv, isMergeable sv = false → lodashMerge dv sv = sv)
    ∧ (∀ d s, lodashMerge (JValue.arr d) (JValue.arr s) = JValue.arr (mergeArrays d s))
    ∧ (∀ (s d : List JValue) (i : Nat), (mergeArrays d s)[i]? =
        match s[i]? with
        | some sv =>
          match d[i]? with
          | some dv => some (lodashMerge dv sv)
          | none => some sv
        | none => d[i]?) :=
  ⟨lodashMerge_obj, mergeFields_lookupField, lodashMerge_scalar,
   lodashMerge_arr, mergeArrays_getElem?⟩

theorem C6_merge_spec_witness :
    lookupField
        (mergeFields [("position", JValue.str "left"), ("min", JValue.num 0)]
          [("position", JValue.str "right"), ("extra", JValue.num 1)]) "position"
      = some (lodashMerge (JValue.str "left") (JValue.str "right"))
    ∧ lookupField
        (mergeFields [("position", JValue.str "left"), ("min", JValue.num 0)]
          [("position", JValue.str "right"), ("extra", JValue.num 1)]) "extra"
      = some (JValue.num 1) :=
  ⟨C6_merge_spec.2.1 [("position", JValue.str "right"), ("extra", JValue.num 1)]
      [("position", JValue.str "left"), ("min", JValue.num 0)] "position" (by decide),
   C6_merge_spec.2.1 [("position", JValue.str "right"), ("extra", JValue.num 1)]
      [("position", JValue.str "left"), ("min", JValue.num 0)] "extra" (by decide)⟩

/-- C7: the byte-valued y-axis tick callback renders `0` for the value `0`
(the falsy check `!value`), `value.toFixed(3)` for values below 1, and the
byte-unit scaler's output for values at least 1 (for every behaviour
`scaler` of the scaler's default-precision application); concretely `0.5`
renders as `"0.500"` and, under the spec-modelled scaler, `2048` renders
as `"2 KB"`. -/
theorem C7_byte_tick_spec (scaler : ℚ → String) :
    (∀ s, parseFloat s = some 0 → memoryTicksCallback scaler s = "0")
    ∧ (∀ s v, parseFloat s = some v → v ≠ 0 → v < 1 →
        memoryTicksCallback scaler s = toFixed v 3)
    ∧ (∀ s v, parseFloat s = some v → 1 ≤ v → memoryTicksCallback scaler s = scaler v)
    ∧ memoryTicksCallback scaler "0" = "0"
    ∧ memoryTicksCallback scaler "0.5" = "0.500"
    ∧ memoryTicksCallback (fun q => bytesToUnits q 2) "2048" = "2 KB" := by
  refine ⟨?_, ?_, ?_, ?_, ?_, by decide⟩
  · intro s h
    simp [memoryTicksCallback, memoryTicksCore, h]
  · intro s v h hne hlt
    simp [memoryTicksCallback, memoryTicksCore, h, hne, hlt]
  · intro s v h hge
    have hne : v ≠ 0 := by
      intro he
      rw [he] at hge
      norm_num at hge
    have hnlt : ¬(v < 1) := not_lt.mpr hge
    simp [memoryTicksCallback, memoryTicksCore, h, hne, hnlt]
  · simp [memoryTicksCallback, show parseFloat "0" = some 0 from by decide, memoryTicksCore]
  · rw [memoryTicksCallback, show parseFloat "0.5" = some (mkRat 1 2) from by decide]
    rw [memoryTicksCore]
    rw [if_neg (by decide), if_pos (by decide)]
    decide

theorem C7_byte_tick_spec_witness :
    memoryTicksCallback (fun q => bytesToUnits q 2) "0.5" = "0.500" := by
  rw [(C7_byte_tick_spec (fun q => bytesToUnits q 2)).2.1 "0.5" (mkRat 1 2)
    (by decide) (by decide) (by decide)]
  decide

/-- C8: the decimal/CPU y-axis tick callback renders `0` for the value `0`,
a 3-decimal string (`toFixed 3`) for values below 10, a 2-decimal string
for values in `[10, 100)` and a 1-decimal string for values at least 100;
concretely `5 → "5.000"`, `55 → "55.00"`, `500 → "500.0"`. -/
theorem C8_cpu_tick_spec :
    cpuTicksCallback 0 = "0"
    ∧ (∀ v : ℚ, v ≠ 0 → v < 10 → cpuTicksCallback v = toFixed v 3)
    ∧ (∀ v : ℚ, 10 ≤ v → v < 100 → cpuTicksCallback v = toFixed v 2)
    ∧ (∀ v : ℚ, 100 ≤ v → cpuTicksCallback v = toFixed v 1)
    ∧ cpuTicksCallback 5 = "5.000"
    ∧ cpuTicksCallback 55 = "55.00"
    ∧ cpuTicksCallback 500 = "500.0" := by
  refine ⟨by decide, ?_, ?_, ?_, by decide, by decide, by decide⟩
  · intro v hne hlt
    simp [cpuTicksCallback, hne, hlt]
  · intro v hge hlt
    have hne : v ≠ 0 := by
      intro he
      rw [he] at hge
      norm_num at hge
    have hnlt : ¬(v < 10) := not_lt.mpr hge
    simp [cpuTicksCallback, hne, hnlt, hlt]
  · intro v hge
    have hne : v ≠ 0 := by
      intro he
      rw [he] at hge
      norm_num at hge
    have hnlt10 : ¬(v < 10) := not_lt.mpr (le_trans (by norm_num) hge)
    have hnlt100 : ¬(v < 100) := not_lt.mpr hge
    simp [cpuTicksCallback, hne, hnlt10, hnlt100]

theorem C8_cpu_tick_spec_witness :
    cpuTicksCallback 5 = toFixed 5 3 ∧ toFixed 5 3 = "5.000" :=
  ⟨C8_cpu_tick_spec.2.1 5 (by decide) (by decide), by decide⟩

/-- C9: for every border color in the model's color domain (`rgb(...)` /
`rgba(...)` strings), `getBarColor` returns the same color with its alpha
set to exactly `0.2` (`mkRat 1 5`), serialized to a standard color string;
the rgb channels — hence hue and lightness — are preserved (the output
parses back to the same channels), and applying the derivation to its own
output yields the same string (idempotent: the alpha is set, not
compounded). -/
theorem C9_fill_color_spec (s : String) (c : ColorV) (h : parseColor s = some c) :
    getBarColor s = some (serializeColor { c with a := mkRat 1 5 })
    ∧ parseColor (serializeColor { c with a := mkRat 1 5 }) = some { c with a := mkRat 1 5 }
    ∧ getBarColor (serializeColor { c with a := mkRat 1 5 })
        = some (serializeColor { c with a := mkRat 1 5 }) := by
  have hround := parseColor_serializeColor_fifth c.r c.g c.b
  refine ⟨?_, hround, ?_⟩
  · simp [getBarColor, h]
  · simp [getBarColor, hround]

theorem C9_fill_color_spec_witness :
    getBarColor "rgb(10, 20, 30)" = some "rgba(10, 20, 30, 0.2)"
    ∧ parseColor "rgba(10, 20, 30, 0.2)" = some ⟨10, 20, 30, mkRat 1 5⟩
    ∧ getBarColor "rgba(10, 20, 30, 0.2)" = some "rgba(10, 20, 30, 0.2)" := by
  obtain ⟨h1, h2, h3⟩ := C9_fill_color_spec "rgb(10, 20, 30)" ⟨10, 20, 30, 1⟩ (by decide)
  have hs : serializeColor { (⟨10, 20, 30, 1⟩ : ColorV) with a := mkRat 1 5 }
      = "rgba(10, 20, 30, 0.2)" := by decide
  rw [hs] at h1 h2 h3
  exact ⟨h1, h2, h3⟩

/-- C10: every raw axis value whose string form parses to `NaN` (modelled
`none`) — and likewise the falsy value `0` — makes the byte-valued tick
callback return the `0` rendering rather than a NaN-like string, for every
behaviour of the byte-unit scaler. -/
theorem C10_nan_tick_spec (scaler : ℚ → String) (s : String)
    (h : parseFloat s = none ∨ parseFloat s = some 0) :
    memoryTicksCallback scaler s = "0" := by
  rcases h with h | h <;> simp [memoryTicksCallback, memoryTicksCore, h]

theorem C10_nan_tick_spec_witness :
    memoryTicksCallback (fun q => bytesToUnits q 2) "abc" = "0" :=
  C10_nan_tick_spec (fun q => bytesToUnits q 2) "abc" (Or.inl (by decide))
